import Mathlib

/-!
Shallow embedding of the session lifecycle manager of `oai-search-mcp`
(`src/index.ts`): the session store (TTL expiry, LRU capacity eviction),
the compaction policy, the single-query executor with its error
classification, and the batch coordinator built on `Promise.allSettled`.

Timestamps are integers (milliseconds); `Date.now()` is passed explicitly
as a `now` argument.  The JavaScript `Map` is modelled as an association
list in insertion order, which is the iteration order of `Map`.  External
provider calls are modelled as oracle arguments: a value of type
`Except String ProviderResponse` is the outcome of one awaited call
(`Except.error msg` models a thrown error whose message is `msg`).
-/

/-- A session record (`interface Session`, src/index.ts lines 63-70). -/
structure Session where
  id : String
  lastResponseId : String
  createdAt : Int
  lastAccessAt : Int
  queryCount : Int
  totalTokens : Int
deriving DecidableEq, Repr

/-- The session store state: the `Map` contents (in insertion order)
together with the `ttl` and `maxSessions` configuration
(`class SessionStore`, src/index.ts lines 72-141). -/
structure SessionStore where
  sessions : List (String × Session)
  ttl : Int
  maxSessions : Nat
deriving DecidableEq, Repr

/-- `Map.get`: the value stored under `id`, if any. -/
def mapGet (l : List (String × Session)) (id : String) : Option Session :=
  (l.find? (fun p => p.1 = id)).map Prod.snd

/-- `Map.set`: replace the entry under `id` in place (keeping its position,
as a JavaScript `Map` does), or append a fresh entry at the end. -/
def mapSet (l : List (String × Session)) (id : String) (s : Session) :
    List (String × Session) :=
  match l with
  | [] => [(id, s)]
  | (k, v) :: rest =>
      if k = id then (k, s) :: rest else (k, v) :: mapSet rest id s

/-- `Map.delete`: remove the entry under `id`. -/
def mapDelete (l : List (String × Session)) (id : String) :
    List (String × Session) :=
  l.filter (fun p => ¬ p.1 = id)

/-- The keys of the map, in insertion order. -/
def keys (l : List (String × Session)) : List String :=
  l.map Prod.fst

/-- The TTL sweep of `cleanup` (src/index.ts lines 127-132): keep exactly
the entries with `now - lastAccessAt < ttl`. -/
def sweepExpired (ttl now : Int) (l : List (String × Session)) :
    List (String × Session) :=
  l.filter (fun p => now - p.2.lastAccessAt < ttl)

/-- `[...entries].sort((a, b) => a[1].lastAccessAt - b[1].lastAccessAt)[0]`:
the stable sort makes this the earliest-inserted entry among those with
the smallest `lastAccessAt`. -/
def findOldest (l : List (String × Session)) : Option (String × Session) :=
  match l with
  | [] => none
  | p :: rest =>
      match findOldest rest with
      | none => some p
      | some q => if q.2.lastAccessAt < p.2.lastAccessAt then some q else some p

/-- The `while (size > maxSessions)` eviction loop of `cleanup`
(src/index.ts lines 134-139), with explicit fuel; each iteration deletes
the oldest entry, so fuel equal to the list length always suffices. -/
def evictLoop (fuel maxSessions : Nat) (l : List (String × Session)) :
    List (String × Session) :=
  match fuel with
  | 0 => l
  | fuel + 1 =>
      if l.length > maxSessions then
        match findOldest l with
        | some p => evictLoop fuel maxSessions (mapDelete l p.1)
        | none => l
      else l

/-- `SessionStore.cleanup` (src/index.ts lines 126-140): TTL sweep, then
LRU eviction while over capacity. -/
def SessionStore.cleanup (st : SessionStore) (now : Int) : SessionStore :=
  let swept := sweepExpired st.ttl now st.sessions
  { st with sessions := evictLoop swept.length st.maxSessions swept }

/-- `SessionStore.create` (src/index.ts lines 82-94): cleanup, then insert
a fresh session under the freshly generated id `newId` (the `nanoid()`
value, supplied as an argument). -/
def SessionStore.create (st : SessionStore) (now : Int) (newId : String) :
    Session × SessionStore :=
  let st1 := st.cleanup now
  let s : Session :=
    { id := newId, lastResponseId := "", createdAt := now,
      lastAccessAt := now, queryCount := 0, totalTokens := 0 }
  (s, { st1 with sessions := mapSet st1.sessions newId s })

/-- `SessionStore.get` (src/index.ts lines 96-106): return the session if
present and not TTL-expired; delete a present-but-expired entry. -/
def SessionStore.get (st : SessionStore) (now : Int) (id : String) :
    Option Session × SessionStore :=
  match mapGet st.sessions id with
  | some s =>
      if now - s.lastAccessAt < st.ttl then (some s, st)
      else (none, { st with sessions := mapDelete st.sessions id })
  | none => (none, st)

/-- `SessionStore.update` (src/index.ts lines 108-116): if the entry is
present, set the continuation token, bump `lastAccessAt`, increment
`queryCount` and add `tokens`; no-op when absent. -/
def SessionStore.update (st : SessionStore) (now : Int) (id : String)
    (responseId : String) (tokens : Int) : SessionStore :=
  match mapGet st.sessions id with
  | some s =>
      let s1 : Session :=
        { s with lastResponseId := responseId, lastAccessAt := now,
                 queryCount := s.queryCount + 1,
                 totalTokens := s.totalTokens + tokens }
      { st with sessions := mapSet st.sessions id s1 }
  | none => st

/-- `SessionStore.resetCounters` (src/index.ts lines 118-124). -/
def SessionStore.resetCounters (st : SessionStore) (id : String) :
    SessionStore :=
  match mapGet st.sessions id with
  | some s =>
      let s1 : Session := { s with queryCount := 0, totalTokens := 0 }
      { st with sessions := mapSet st.sessions id s1 }
  | none => st

/-- The number of valid (non-expired) entries at time `now`. -/
def validCount (st : SessionStore) (now : Int) : Nat :=
  (st.sessions.filter (fun p => now - p.2.lastAccessAt < st.ttl)).length

example :
    let st : SessionStore := { sessions := [], ttl := 10, maxSessions := 1 }
    let st1 := (st.create 0 "a").2
    let st2 := (st1.create 0 "b").2
    st2.sessions.length = 2 := by decide

/-- The configuration fields consumed by the compaction policy
(src/index.ts lines 169-204). -/
structure Config where
  autoCompaction : Bool
  compactionQueryThreshold : Int
  compactionTokenThreshold : Int
deriving DecidableEq, Repr

/-- `shouldCompact` (src/index.ts lines 256-263).  `!session.lastResponseId`
is the JavaScript emptiness test on the string. -/
def shouldCompact (cfg : Config) (s : Session) : Bool :=
  if !cfg.autoCompaction then false
  else if s.lastResponseId = "" then false
  else
    decide (s.queryCount ≥ cfg.compactionQueryThreshold) ||
      decide (s.totalTokens ≥ cfg.compactionTokenThreshold)

/-- The result of `compactConversation`
(src/index.ts line 267: `{ success: boolean; newResponseId?: string }`). -/
structure CompactResult where
  success : Bool
  newResponseId : Option String
deriving DecidableEq, Repr

/-- The retry loop of `compactConversation` (src/index.ts lines 270-298):
`oracle n` is the outcome of attempt number `n` (`some id` when the
provider call returns a compacted response with that id, `none` when it
throws).  `attempt` is the current attempt number, `remaining` the number
of attempts left. -/
def compactGo (oracle : Nat → Option String) :
    Nat → Nat → CompactResult
  | _, 0 => { success := false, newResponseId := none }
  | attempt, remaining + 1 =>
      match oracle attempt with
      | some rid => { success := true, newResponseId := some rid }
      | none => compactGo oracle (attempt + 1) remaining

/-- `compactConversation` (src/index.ts lines 265-306): up to
`maxRetries = 2` attempts, returning the first success; the session is
only read (for logging), never written. -/
def compactConversation (oracle : Nat → Option String) : CompactResult :=
  compactGo oracle 1 2

/-- The relevant fields of the provider's response object:
`response.id`, `response.output_text`, and `usage?.total_tokens`
(absent usage modelled as `none`). -/
structure ProviderResponse where
  id : String
  output_text : String
  total_tokens : Option Int
deriving DecidableEq, Repr

/-- The executor's result (`interface SearchResult`,
src/index.ts lines 312-316). -/
structure SearchResult where
  text : String
  responseId : String
  tokens : Int
deriving DecidableEq, Repr

/-- `sub` starts the character list `l`. -/
def charsStartWith : List Char → List Char → Bool
  | [], _ => true
  | _ :: _, [] => false
  | a :: as, b :: bs => a = b && charsStartWith as bs

/-- `sub` occurs contiguously somewhere in `l`. -/
def charsContain (sub : List Char) : List Char → Bool
  | [] => charsStartWith sub []
  | b :: bs => charsStartWith sub (b :: bs) || charsContain sub bs

/-- `sub` occurs as a contiguous substring of `s`
(JavaScript `String.prototype.includes`). -/
def strContains (s sub : String) : Bool :=
  charsContain sub.data s.data

/-- The error classification of `executeSingleSearch`'s catch branch
(src/index.ts lines 412-424). -/
def errorTextFor (errorMessage : String) : String :=
  if strContains errorMessage "api_key" then
    "Error: Invalid API key. Please check your OPENAI_API_KEY environment variable."
  else if strContains errorMessage "rate_limit" then
    "Error: Rate limit exceeded. Please try again later."
  else if strContains errorMessage "timeout" then
    "Error: Request timeout. The search took too long to complete."
  else "Error: " ++ errorMessage

/-- `executeSingleSearch` (src/index.ts lines 319-432), as a function of
the outcome of the single awaited provider call.  On success it extracts
`output_text` (with a fallback when empty), the response id and the token
count (`usage?.total_tokens || 0`); the catch branch converts any thrown
error into a textual result with an empty response id and zero tokens. -/
def executeSingleSearch (call : Except String ProviderResponse) :
    SearchResult :=
  match call with
  | Except.ok r =>
      { text := if r.output_text = "" then "No response text available."
                else r.output_text,
        responseId := r.id,
        tokens := r.total_tokens.getD 0 }
  | Except.error msg =>
      { text := errorTextFor msg, responseId := "", tokens := 0 }

/-- `executeSingleSearchLegacy` (src/index.ts lines 435-446): the text of
the full result. -/
def executeSingleSearchLegacy (call : Except String ProviderResponse) :
    String :=
  (executeSingleSearch call).text

/-- The settled state of a JavaScript promise, as observed by
`Promise.allSettled`. -/
inductive Settled (α : Type) where
  | fulfilled (value : α)
  | rejected (reason : String)
deriving DecidableEq, Repr

/-- Whether a settled result has `status === "fulfilled"`. -/
def isFulfilled : Settled String → Bool
  | Settled.fulfilled _ => true
  | Settled.rejected _ => false

/-- The settled outcome of one batch item's
`executeSingleSearchLegacy(input, searchOptions)` promise: every path of
`executeSingleSearch` returns (its try/catch spans the whole body and the
catch branch only builds strings), so the promise always fulfills. -/
def runSearchTask (call : Except String ProviderResponse) : Settled String :=
  Settled.fulfilled (executeSingleSearchLegacy call)

/-- `await Promise.allSettled(inputs.map(...))` in the batch handler
(src/index.ts lines 721-723): `calls` lists the provider-call outcome of
each batch item, in input order. -/
def batchSettle (calls : List (Except String ProviderResponse)) :
    List (Settled String) :=
  calls.map runSearchTask

/-- `successCount` of the structured output branch
(src/index.ts line 781). -/
def batchSuccessCount (calls : List (Except String ProviderResponse)) :
    Nat :=
  ((batchSettle calls).filter isFulfilled).length

/-- The mechanism of `Promise.allSettled`'s ordering guarantee: tasks
complete in an arbitrary order (`schedule`) and each writes its settled
outcome at its own input index of a fixed-size result array. -/
def fillResults (outcomes : Nat → Settled String) :
    List Nat → List (Option (Settled String)) → List (Option (Settled String))
  | [], acc => acc
  | i :: rest, acc => fillResults outcomes rest (acc.set i (some (outcomes i)))


/-- The outcome returned by the `web-search` tool handler: either the
invalid-session error response (src/index.ts lines 534-551, with
`isError: true` and the given error message) or a normal response carrying
the session id, the result text and an optional warning
(src/index.ts lines 611-626). -/
inductive HandlerOutcome where
  | errorInvalidSession (msg : String)
  | ok (sessionId : String) (result : String) (warning : Option String)
deriving DecidableEq, Repr

/-- The compaction warning string of the `web-search` handler
(src/index.ts line 571). -/
def compactionWarning : String :=
  "Compaction failed, continuing without compression"

/-- The compaction branch of the `web-search` handler
(src/index.ts lines 560-573), applied to the session stored under `sid`:
on `compactResult.success && compactResult.newResponseId` (the string must
be truthy, i.e. non-empty) the session's continuation token is replaced
and its counters reset; otherwise the store is untouched and the warning
is set. -/
def compactionApply (st : SessionStore) (sid : String) (s : Session)
    (r : CompactResult) : SessionStore × Option String :=
  match r.newResponseId with
  | some rid =>
      if r.success && !(rid = "") then
        let s1 : Session := { s with lastResponseId := rid }
        let st1 : SessionStore :=
          { st with sessions := mapSet st.sessions sid s1 }
        (st1.resetCounters sid, none)
      else (st, some compactionWarning)
  | none => (st, some compactionWarning)

/-- The body of the `web-search` handler once a session is in hand
(src/index.ts lines 559-626): maybe compact, carry the (possibly updated)
continuation token into the provider call, and update the session only
when the call returned a truthy response id.  `callOracle` maps the
`previousResponseId` option actually sent to the outcome of the awaited
provider call.  The `none` branch of the outer match is unreachable: every
caller passes a `sid` present in the store. -/
def webSearchWithSession (cfg : Config) (st : SessionStore) (now : Int)
    (sid : String) (compactOracle : Nat → Option String)
    (callOracle : Option String → Except String ProviderResponse) :
    HandlerOutcome × SessionStore :=
  match mapGet st.sessions sid with
  | none => (HandlerOutcome.errorInvalidSession "", st)
  | some s0 =>
      let step : SessionStore × Option String :=
        if shouldCompact cfg s0 then
          compactionApply st sid s0 (compactConversation compactOracle)
        else (st, none)
      let st2 := step.1
      let warning := step.2
      let s1 := (mapGet st2.sessions sid).getD s0
      let prev : Option String :=
        if s1.lastResponseId = "" then none else some s1.lastResponseId
      let result := executeSingleSearch (callOracle prev)
      let st3 :=
        if result.responseId = "" then st2
        else st2.update now sid result.responseId result.tokens
      (HandlerOutcome.ok sid result.text warning, st3)

/-- The `web-search` tool handler (src/index.ts lines 504-628): a supplied
`sessionId` is validated against the store (an unknown or expired id is a
terminal error); an omitted one creates a fresh session (with id `newId`,
the `nanoid()` value). -/
def webSearchHandler (cfg : Config) (st : SessionStore) (now : Int)
    (sessionId : Option String) (newId : String)
    (compactOracle : Nat → Option String)
    (callOracle : Option String → Except String ProviderResponse) :
    HandlerOutcome × SessionStore :=
  match sessionId with
  | some sid =>
      let r := st.get now sid
      match r.1 with
      | none =>
          (HandlerOutcome.errorInvalidSession
            ("Invalid or expired session ID: " ++ sid), r.2)
      | some _ =>
          webSearchWithSession cfg r.2 now sid compactOracle callOracle
  | none =>
      let c := st.create now newId
      webSearchWithSession cfg c.2 now c.1.id compactOracle callOracle

/-- One operation on the session store, for reasoning over operation
sequences; the `now` of each operation is explicit. -/
inductive StoreOp where
  | createOp (now : Int) (newId : String)
  | getOp (now : Int) (id : String)
  | updateOp (now : Int) (id : String) (responseId : String) (tokens : Int)
  | resetOp (id : String)
  | cleanupOp (now : Int)
deriving DecidableEq, Repr

/-- Run a sequence of store operations (discarding the returned values). -/
def runOps (st : SessionStore) : List StoreOp → SessionStore
  | [] => st
  | op :: rest =>
      let st1 :=
        match op with
        | StoreOp.createOp now newId => (st.create now newId).2
        | StoreOp.getOp now id => (st.get now id).2
        | StoreOp.updateOp now id rid tok => st.update now id rid tok
        | StoreOp.resetOp id => st.resetCounters id
        | StoreOp.cleanupOp now => st.cleanup now
      runOps st1 rest

/-- The ids handed out by the `create` operations of a sequence. -/
def createdIds : List StoreOp → List String
  | [] => []
  | StoreOp.createOp _ newId :: rest => newId :: createdIds rest
  | _ :: rest => createdIds rest

/-! ### Map lemmas -/

theorem mapGet_mapSet_self (l : List (String × Session)) (id : String)
    (s : Session) : mapGet (mapSet l id s) id = some s := by
  induction l with
  | nil => simp [mapGet, mapSet, List.find?]
  | cons a rest ih =>
      by_cases h : a.1 = id
      · simp [mapSet, h, mapGet, List.find?]
      · obtain ⟨k, v⟩ := a
        simp only at h
        simp only [mapSet, if_neg h]
        simpa [mapGet, List.find?, h] using ih

theorem mapSet_mapSet (l : List (String × Session)) (id : String)
    (a b : Session) : mapSet (mapSet l id a) id b = mapSet l id b := by
  induction l with
  | nil => simp [mapSet]
  | cons p rest ih =>
      by_cases h : p.1 = id
      · simp [mapSet, h]
      · obtain ⟨k, v⟩ := p
        simp only at h
        simp [mapSet, h, ih]

theorem mapGet_mem_keys {l : List (String × Session)} {id : String}
    {s : Session} (h : mapGet l id = some s) : id ∈ keys l := by
  unfold mapGet at h
  obtain ⟨p, hp, hps⟩ := Option.map_eq_some'.mp h
  have hmem := List.mem_of_find?_eq_some hp
  have hpred := List.find?_some hp
  have : p.1 = id := by simpa using hpred
  exact this ▸ List.mem_map_of_mem Prod.fst hmem

theorem mapDelete_sublist (l : List (String × Session)) (id : String) :
    (mapDelete l id).Sublist l :=
  List.filter_sublist l

theorem sweepExpired_sublist (ttl now : Int) (l : List (String × Session)) :
    (sweepExpired ttl now l).Sublist l :=
  List.filter_sublist l

theorem findOldest_eq_none {l : List (String × Session)} :
    findOldest l = none ↔ l = [] := by
  cases l with
  | nil => simp [findOldest]
  | cons a rest =>
      unfold findOldest
      cases findOldest rest with
      | none => simp
      | some q =>
          by_cases hc : q.2.lastAccessAt < a.2.lastAccessAt <;> simp [hc]

theorem findOldest_mem {l : List (String × Session)}
    {p : String × Session} (h : findOldest l = some p) : p ∈ l := by
  induction l with
  | nil => simp [findOldest] at h
  | cons a rest ih =>
      unfold findOldest at h
      cases hr : findOldest rest with
      | none =>
          rw [hr] at h
          simp at h
          simp [h]
      | some q =>
          rw [hr] at h
          simp only at h
          by_cases hc : q.2.lastAccessAt < a.2.lastAccessAt
          · rw [if_pos hc] at h
            have hq : q = p := Option.some.inj h
            exact List.mem_cons_of_mem a (ih (hq ▸ hr))
          · rw [if_neg hc] at h
            have ha : a = p := Option.some.inj h
            simp [ha.symm]

theorem findOldest_min {l : List (String × Session)} :
    ∀ {p : String × Session}, findOldest l = some p →
      ∀ q ∈ l, p.2.lastAccessAt ≤ q.2.lastAccessAt := by
  induction l with
  | nil => intro p h; simp [findOldest] at h
  | cons a rest ih =>
      intro p h
      unfold findOldest at h
      cases hr : findOldest rest with
      | none =>
          rw [hr] at h
          simp at h
          have hrest : rest = [] := findOldest_eq_none.mp hr
          subst hrest
          intro q hq
          simp at hq
          simp [hq, h]
      | some w =>
          rw [hr] at h
          simp only at h
          by_cases hc : w.2.lastAccessAt < a.2.lastAccessAt
          · rw [if_pos hc] at h
            have hw : w = p := Option.some.inj h
            subst hw
            intro q hq
            rcases List.mem_cons.mp hq with h1 | h2
            · exact h1 ▸ le_of_lt hc
            · exact ih hr q h2
          · rw [if_neg hc] at h
            have ha : a = p := Option.some.inj h
            subst ha
            intro q hq
            rcases List.mem_cons.mp hq with h1 | h2
            · simp [h1]
            · exact le_trans (not_lt.mp hc) (ih hr q h2)

theorem findOldest_isSome {l : List (String × Session)} (h : l ≠ []) :
    ∃ p, findOldest l = some p := by
  cases hf : findOldest l with
  | none => exact absurd (findOldest_eq_none.mp hf) h
  | some p => exact ⟨p, rfl⟩

theorem length_mapDelete_lt {l : List (String × Session)}
    {p : String × Session} (h : p ∈ l) :
    (mapDelete l p.1).length < l.length := by
  induction l with
  | nil => simp at h
  | cons a rest ih =>
      by_cases ha : a.1 = p.1
      · have h1 : mapDelete (a :: rest) p.1 = mapDelete rest p.1 := by
          simp [mapDelete, List.filter_cons, ha]
        rw [h1]
        have h2 : (mapDelete rest p.1).length ≤ rest.length :=
          (mapDelete_sublist rest p.1).length_le
        simp only [List.length_cons]
        omega
      · have hp : p ∈ rest := by
          rcases List.mem_cons.mp h with h1 | h2
          · exact absurd (by rw [h1]) ha
          · exact h2
        have h1 : mapDelete (a :: rest) p.1 = a :: mapDelete rest p.1 := by
          simp [mapDelete, List.filter_cons, ha]
        rw [h1]
        simpa using ih hp

theorem evictLoop_sublist (fuel maxSessions : Nat) :
    ∀ l : List (String × Session), (evictLoop fuel maxSessions l).Sublist l := by
  induction fuel with
  | zero => intro l; simp [evictLoop]
  | succ fuel ih =>
      intro l
      unfold evictLoop
      by_cases hlen : l.length > maxSessions
      · rw [if_pos hlen]
        cases hf : findOldest l with
        | none => exact List.Sublist.refl l
        | some p => exact (ih _).trans (mapDelete_sublist l p.1)
      · rw [if_neg hlen]

theorem evictLoop_length (maxSessions : Nat) :
    ∀ (fuel : Nat) (l : List (String × Session)),
      (evictLoop fuel maxSessions l).length ≤
        max maxSessions (l.length - fuel) := by
  intro fuel
  induction fuel with
  | zero =>
      intro l
      rw [show evictLoop 0 maxSessions l = l from rfl]
      exact le_max_of_le_right (by omega)
  | succ fuel ih =>
      intro l
      unfold evictLoop
      by_cases hlen : l.length > maxSessions
      · rw [if_pos hlen]
        have hne : l ≠ [] := by
          intro h
          rw [h] at hlen
          simp at hlen
        obtain ⟨p, hp⟩ := findOldest_isSome hne
        rw [hp]
        have hlt := length_mapDelete_lt (findOldest_mem hp)
        calc (evictLoop fuel maxSessions (mapDelete l p.1)).length
            ≤ max maxSessions ((mapDelete l p.1).length - fuel) := ih _
          _ ≤ max maxSessions (l.length - (fuel + 1)) := by
              apply max_le_max (le_refl _)
              omega
      · rw [if_neg hlen]
        exact le_max_of_le_left (not_lt.mp hlen)

theorem cleanup_length (st : SessionStore) (now : Int) :
    (st.cleanup now).sessions.length ≤ st.maxSessions := by
  unfold SessionStore.cleanup
  have h := evictLoop_length st.maxSessions
    (sweepExpired st.ttl now st.sessions).length
    (sweepExpired st.ttl now st.sessions)
  simpa using h

theorem length_mapSet_le (l : List (String × Session)) (id : String)
    (s : Session) : (mapSet l id s).length ≤ l.length + 1 := by
  induction l with
  | nil => simp [mapSet]
  | cons a rest ih =>
      by_cases h : a.1 = id
      · obtain ⟨k, v⟩ := a
        simp only at h
        simp [mapSet, h]
      · obtain ⟨k, v⟩ := a
        simp only at h
        simp only [mapSet, if_neg h, List.length_cons]
        omega

theorem create_length (st : SessionStore) (now : Int) (newId : String) :
    ((st.create now newId).2).sessions.length ≤ st.maxSessions + 1 := by
  unfold SessionStore.create
  simp only
  calc (mapSet (st.cleanup now).sessions newId _).length
      ≤ (st.cleanup now).sessions.length + 1 := length_mapSet_le _ _ _
    _ ≤ st.maxSessions + 1 := by
        have := cleanup_length st now
        omega

theorem validCount_le_length (st : SessionStore) (now : Int) :
    validCount st now ≤ st.sessions.length :=
  List.length_filter_le _ _

/-- Claim C1, as stated, is false: with `maxSessions = 1` and a large TTL,
two `create` calls leave the store with 2 valid entries, exceeding
`maxSessions` — the eviction loop of `cleanup` only runs while the store
is already OVER capacity before the new session is inserted. -/
theorem create_can_exceed_maxSessions :
    let st : SessionStore := { sessions := [], ttl := 10, maxSessions := 1 }
    let st2 := (((st.create 0 "a").2).create 0 "b").2
    ¬ (validCount st2 0 ≤ st2.maxSessions) := by decide

/-- Claim C1 (amended): after any `create` call the store holds at most
`maxSessions + 1` entries (hence at most `maxSessions + 1` valid ones):
the TTL sweep plus eviction loop bring the store within `maxSessions`
BEFORE the new session is inserted; and the entry picked for eviction
always has the smallest `lastAccessAt` among the store's entries. -/
theorem create_capacity_bound :
    (∀ (st : SessionStore) (now : Int) (newId : String),
      ((st.create now newId).2).sessions.length ≤ st.maxSessions + 1) ∧
    (∀ (st : SessionStore) (now : Int) (newId : String),
      validCount ((st.create now newId).2) now ≤ st.maxSessions + 1) ∧
    (∀ (l : List (String × Session)) (p : String × Session),
      findOldest l = some p →
        ∀ q ∈ l, p.2.lastAccessAt ≤ q.2.lastAccessAt) := by
  refine ⟨create_length, ?_, fun l p hp => findOldest_min hp⟩
  intro st now newId
  calc validCount ((st.create now newId).2) now
      ≤ ((st.create now newId).2).sessions.length :=
        validCount_le_length _ _
    _ ≤ st.maxSessions + 1 := create_length st now newId

/-- Two concrete entries used by witnesses below. -/
def sessionX : Session :=
  { id := "x", lastResponseId := "", createdAt := 0,
    lastAccessAt := 5, queryCount := 0, totalTokens := 0 }

/-- Two concrete entries used by witnesses below. -/
def sessionY : Session :=
  { id := "y", lastResponseId := "", createdAt := 0,
    lastAccessAt := 3, queryCount := 0, totalTokens := 0 }

/-- Witness for the amended claim C1, at concrete inputs. -/
theorem create_capacity_bound_witness :
    ((((SessionStore.create
        { sessions := [], ttl := 10, maxSessions := 1 } 0 "a").2.create
        0 "b").2).sessions.length ≤ 1 + 1) ∧
    ∀ q ∈ [("x", sessionX), ("y", sessionY)],
      ("y", sessionY).2.lastAccessAt ≤ q.2.lastAccessAt := by
  constructor
  · exact create_capacity_bound.1
      (SessionStore.create { sessions := [], ttl := 10, maxSessions := 1 }
        0 "a").2 0 "b"
  · exact create_capacity_bound.2.2 _ ("y", sessionY) (by decide)

/-- Claim C4: the compaction trigger is true iff auto-compaction is
enabled, the session's continuation token is non-empty, and one of the
two counters has reached its threshold; in particular it is false
whenever the continuation token is empty. -/
theorem shouldCompact_trigger_iff (cfg : Config) (s : Session) :
    (shouldCompact cfg s = true ↔
      (cfg.autoCompaction = true ∧ s.lastResponseId ≠ "" ∧
        (cfg.compactionQueryThreshold ≤ s.queryCount ∨
          cfg.compactionTokenThreshold ≤ s.totalTokens))) ∧
    (s.lastResponseId = "" → shouldCompact cfg s = false) := by
  constructor
  · cases ha : cfg.autoCompaction <;>
      by_cases hb : s.lastResponseId = "" <;>
        simp [shouldCompact, ha, hb]
  · intro hb
    cases ha : cfg.autoCompaction <;> simp [shouldCompact, ha, hb]

/-- Witness for claim C4: a session with an empty continuation token never
triggers compaction even with huge counters, and a session over the query
threshold with a token does. -/
theorem shouldCompact_trigger_iff_witness :
    (shouldCompact
      { autoCompaction := true, compactionQueryThreshold := 10,
        compactionTokenThreshold := 50000 }
      { id := "s", lastResponseId := "", createdAt := 0, lastAccessAt := 0,
        queryCount := 999, totalTokens := 999999 } = false) ∧
    (shouldCompact
      { autoCompaction := true, compactionQueryThreshold := 10,
        compactionTokenThreshold := 50000 }
      { id := "s", lastResponseId := "resp", createdAt := 0,
        lastAccessAt := 0, queryCount := 10, totalTokens := 0 } = true) := by
  constructor
  · exact (shouldCompact_trigger_iff _ _).2 rfl
  · exact (shouldCompact_trigger_iff _ _).1.mpr
      ⟨rfl, by decide, Or.inl (by decide)⟩

/-- Claim C9: `executeSingleSearch` always fulfills — its settled outcome
is always `fulfilled`, so `Promise.allSettled` over a batch never
observes a rejected item, whatever each item's provider call did. -/
theorem batch_tasks_never_reject :
    (∀ call : Except String ProviderResponse,
      runSearchTask call =
        Settled.fulfilled (executeSingleSearchLegacy call)) ∧
    ∀ calls : List (Except String ProviderResponse),
      (batchSettle calls).all isFulfilled = true := by
  refine ⟨fun call => rfl, ?_⟩
  intro calls
  simp only [batchSettle, List.all_eq_true]
  intro x hx
  obtain ⟨c, _, hc⟩ := List.mem_map.mp hx
  rw [← hc]
  rfl

/-- A concrete batch of 3 provider-call outcomes in which exactly the
second query's external call fails (throws with message "boom"). -/
def batchCallsOneFailure : List (Except String ProviderResponse) :=
  [Except.ok { id := "r0", output_text := "text0", total_tokens := some 5 },
   Except.error "boom",
   Except.ok { id := "r2", output_text := "text2", total_tokens := some 7 }]

/-- Claim C2, as stated, is false on the code: for a batch of 3 queries
where exactly the second provider call throws, the settled outcomes are
NOT success-failure-success with a 2/3 tally.  `executeSingleSearch`
catches the error and fulfills with an error text, so `Promise.allSettled`
sees three fulfilled outcomes and the tally is 3/3. -/
theorem batch_failure_not_rejected :
    ¬ ((batchSettle batchCallsOneFailure).map isFulfilled =
        [true, false, true] ∧
      batchSuccessCount batchCallsOneFailure = 2) := by decide

/-- Claim C2 (amended): for a batch of 3 queries where exactly the second
provider call fails, all three outcomes are fulfilled (the failure is
confined to item 1, whose result text is the classified error message;
items 0 and 2 carry their own results) and the reported tally is 3 out
of 3. -/
theorem batch_one_failure_tally (r0 r2 : ProviderResponse) (msg : String) :
    (batchSettle [Except.ok r0, Except.error msg, Except.ok r2]).map
        isFulfilled = [true, true, true] ∧
    batchSuccessCount [Except.ok r0, Except.error msg, Except.ok r2] = 3 ∧
    batchSettle [Except.ok r0, Except.error msg, Except.ok r2] =
      [Settled.fulfilled (executeSingleSearchLegacy (Except.ok r0)),
       Settled.fulfilled (errorTextFor msg),
       Settled.fulfilled (executeSingleSearchLegacy (Except.ok r2))] := by
  refine ⟨rfl, rfl, ?_⟩
  simp [batchSettle, runSearchTask, executeSingleSearchLegacy,
    executeSingleSearch]

/-! ### `Promise.allSettled` ordering (claim C5) -/

theorem fillResults_length (outcomes : Nat → Settled String) :
    ∀ (sched : List Nat) (acc : List (Option (Settled String))),
      (fillResults outcomes sched acc).length = acc.length := by
  intro sched
  induction sched with
  | nil => intro acc; rfl
  | cons i rest ih =>
      intro acc
      simp [fillResults, ih]

theorem fillResults_get_not_mem (outcomes : Nat → Settled String)
    {j : Nat} :
    ∀ (sched : List Nat) (acc : List (Option (Settled String))),
      j ∉ sched → (fillResults outcomes sched acc)[j]? = acc[j]? := by
  intro sched
  induction sched with
  | nil => intro acc _; rfl
  | cons i rest ih =>
      intro acc hj
      have hij : j ≠ i := fun h => hj (h ▸ List.mem_cons_self i rest)
      have hr : j ∉ rest := fun h => hj (List.mem_cons_of_mem i h)
      rw [show fillResults outcomes (i :: rest) acc =
        fillResults outcomes rest (acc.set i (some (outcomes i))) from rfl]
      rw [ih _ hr]
      exact List.getElem?_set_ne (Ne.symm hij)

theorem fillResults_get_mem (outcomes : Nat → Settled String) {j : Nat} :
    ∀ (sched : List Nat) (acc : List (Option (Settled String))),
      j ∈ sched → j < acc.length →
      (fillResults outcomes sched acc)[j]? = some (some (outcomes j)) := by
  intro sched
  induction sched with
  | nil => intro acc hj; simp at hj
  | cons i rest ih =>
      intro acc hj hlen
      rw [show fillResults outcomes (i :: rest) acc =
        fillResults outcomes rest (acc.set i (some (outcomes i))) from rfl]
      by_cases hr : j ∈ rest
      · exact ih _ hr (by simpa using hlen)
      · have hij : j = i := by
          rcases List.mem_cons.mp hj with h | h
          · exact h
          · exact absurd h hr
        subst hij
        rw [fillResults_get_not_mem outcomes rest _ hr]
        exact List.getElem?_set_self hlen

/-- Claim C5: for a batch of 1..10 queries, whatever the completion order
of the external calls, the settled-result array has exactly one outcome
per input query, and position `i` holds the outcome of input query `i` —
every completion writes at its own input index of the fixed-size result
array.  `provider i` is the outcome of query `i`'s external call and
`schedule` is the order in which the calls complete (any permutation of
the indices). -/
theorem batch_preserves_input_order (inputs : List String)
    (provider : Nat → Except String ProviderResponse)
    (schedule : List Nat)
    (_h1 : 1 ≤ inputs.length) (_h2 : inputs.length ≤ 10)
    (hp : schedule.Perm (List.range inputs.length)) :
    fillResults (fun i => runSearchTask (provider i)) schedule
        (List.replicate inputs.length none) =
      (List.range inputs.length).map
        (fun i => some (runSearchTask (provider i))) ∧
    (fillResults (fun i => runSearchTask (provider i)) schedule
        (List.replicate inputs.length none)).length = inputs.length := by
  have hlen : (List.replicate inputs.length
      (none : Option (Settled String))).length = inputs.length := by simp
  have hmain : fillResults (fun i => runSearchTask (provider i)) schedule
      (List.replicate inputs.length none) =
      (List.range inputs.length).map
        (fun i => some (runSearchTask (provider i))) := by
    apply List.ext_getElem?
    intro j
    by_cases hj : j < inputs.length
    · have hmem : j ∈ schedule := hp.mem_iff.mpr (List.mem_range.mpr hj)
      rw [fillResults_get_mem _ schedule _ hmem (by simpa using hj)]
      rw [List.getElem?_map]
      rw [List.getElem?_range hj]
      rfl
    · have hmem : j ∉ schedule := fun h =>
        hj (List.mem_range.mp (hp.mem_iff.mp h))
      rw [fillResults_get_not_mem _ schedule _ hmem]
      rw [List.getElem?_eq_none (by simpa using not_lt.mp hj)]
      rw [List.getElem?_eq_none (by simpa using not_lt.mp hj)]
  exact ⟨hmain, by rw [hmain]; simp⟩

/-- Witness for claim C5: three queries whose calls complete in the order
2, 1, 0 still yield results indexed by input position. -/
theorem batch_preserves_input_order_witness :
    (1 ≤ (["q0", "q1", "q2"] : List String).length) ∧
    ((["q0", "q1", "q2"] : List String).length ≤ 10) ∧
    ([2, 1, 0] : List Nat).Perm
      (List.range (["q0", "q1", "q2"] : List String).length) ∧
    (fillResults
        (fun _ => runSearchTask
          (Except.ok { id := "r", output_text := "t", total_tokens := none }))
        [2, 1, 0]
        (List.replicate (["q0", "q1", "q2"] : List String).length none) =
      (List.range (["q0", "q1", "q2"] : List String).length).map
        (fun _ => some (runSearchTask
          (Except.ok
            { id := "r", output_text := "t", total_tokens := none })))) := by
  refine ⟨by decide, by decide, by decide, ?_⟩
  exact (batch_preserves_input_order ["q0", "q1", "q2"] _ [2, 1, 0]
    (by decide) (by decide) (by decide)).1

/-! ### Session lookup (claims C8, C10) -/

theorem get_hit {st : SessionStore} {now : Int} {id : String} {s : Session}
    (h : (st.get now id).1 = some s) :
    mapGet st.sessions id = some s ∧ now - s.lastAccessAt < st.ttl ∧
      (st.get now id).2 = st := by
  unfold SessionStore.get at h ⊢
  cases hm : mapGet st.sessions id with
  | none => rw [hm] at h; simp at h
  | some s0 =>
      rw [hm] at h
      simp only at h ⊢
      by_cases hc : now - s0.lastAccessAt < st.ttl
      · rw [if_pos hc] at h
        simp at h
        subst h
        exact ⟨rfl, hc, by rw [if_pos hc]⟩
      · rw [if_neg hc] at h
        simp at h

theorem get_eq_some_iff (st : SessionStore) (now : Int) (id : String)
    (s : Session) :
    (st.get now id).1 = some s ↔
      (mapGet st.sessions id = some s ∧ now - s.lastAccessAt < st.ttl) := by
  constructor
  · intro h
    exact ⟨(get_hit h).1, (get_hit h).2.1⟩
  · rintro ⟨hm, hc⟩
    unfold SessionStore.get
    rw [hm]
    simp only
    rw [if_pos hc]

theorem get_expired {st : SessionStore} {now : Int} {id : String}
    {s : Session} (hm : mapGet st.sessions id = some s)
    (hexp : st.ttl ≤ now - s.lastAccessAt) :
    (st.get now id).1 = none ∧
      (st.get now id).2.sessions = mapDelete st.sessions id := by
  unfold SessionStore.get
  rw [hm]
  simp only
  rw [if_neg (not_lt.mpr hexp)]
  exact ⟨rfl, rfl⟩

theorem get_keys_subset (st : SessionStore) (now : Int) (id : String) :
    keys ((st.get now id).2).sessions ⊆ keys st.sessions := by
  unfold SessionStore.get
  cases hm : mapGet st.sessions id with
  | none => exact fun x hx => hx
  | some s =>
      simp only
      by_cases hc : now - s.lastAccessAt < st.ttl
      · rw [if_pos hc]; exact fun x hx => hx
      · rw [if_neg hc]
        exact ((mapDelete_sublist st.sessions id).map Prod.fst).subset

/-- Claim C10: `update` does not check the TTL.  For an entry still in the
map but already expired (`now - lastAccessAt >= ttl`, so `get` would
remove it and report absent), `update` still mutates it and sets
`lastAccessAt` to the current time — after which `get` returns the
session again. -/
theorem update_revives_expired (st : SessionStore) (now now2 : Int)
    (id responseId : String) (tokens : Int) (s : Session)
    (hm : mapGet st.sessions id = some s)
    (hexp : st.ttl ≤ now - s.lastAccessAt) :
    (st.get now id).1 = none ∧
    mapGet (st.update now id responseId tokens).sessions id =
      some { s with lastResponseId := responseId, lastAccessAt := now,
                    queryCount := s.queryCount + 1,
                    totalTokens := s.totalTokens + tokens } ∧
    (now2 - now < st.ttl →
      ((st.update now id responseId tokens).get now2 id).1 =
        some { s with lastResponseId := responseId, lastAccessAt := now,
                      queryCount := s.queryCount + 1,
                      totalTokens := s.totalTokens + tokens }) := by
  have h1 : (st.get now id).1 = none := (get_expired hm hexp).1
  have h2 : (st.update now id responseId tokens).sessions =
      mapSet st.sessions id
        { s with lastResponseId := responseId, lastAccessAt := now,
                 queryCount := s.queryCount + 1,
                 totalTokens := s.totalTokens + tokens } := by
    unfold SessionStore.update
    rw [hm]
  have h3 : mapGet (st.update now id responseId tokens).sessions id =
      some { s with lastResponseId := responseId, lastAccessAt := now,
                    queryCount := s.queryCount + 1,
                    totalTokens := s.totalTokens + tokens } := by
    rw [h2]; exact mapGet_mapSet_self _ _ _
  refine ⟨h1, h3, fun hvalid => ?_⟩
  have httl : (st.update now id responseId tokens).ttl = st.ttl := by
    unfold SessionStore.update
    rw [hm]
  exact (get_eq_some_iff _ _ _ _).mpr ⟨h3, by rw [httl]; exact hvalid⟩

/-- Witness for claim C10: a concrete expired-but-unswept entry is revived
by `update`. -/
theorem update_revives_expired_witness :
    (let st : SessionStore :=
      { sessions := [("x", sessionX)], ttl := 10, maxSessions := 5 }
     (st.get 20 "x").1 = none ∧
    mapGet (st.update 20 "x" "resp" 3).sessions "x" =
      some { sessionX with lastResponseId := "resp", lastAccessAt := 20,
                           queryCount := sessionX.queryCount + 1,
                           totalTokens := sessionX.totalTokens + 3 } ∧
    (25 - 20 < st.ttl →
      ((st.update 20 "x" "resp" 3).get 25 "x").1 =
        some { sessionX with lastResponseId := "resp", lastAccessAt := 20,
                             queryCount := sessionX.queryCount + 1,
                             totalTokens := sessionX.totalTokens + 3 })) := by
  exact update_revives_expired _ 20 25 "x" "resp" 3 sessionX
    (by decide) (by decide)

theorem mapSet_keys_subset (l : List (String × Session)) (id : String)
    (s : Session) : keys (mapSet l id s) ⊆ id :: keys l := by
  induction l with
  | nil => simp [mapSet, keys]
  | cons a rest ih =>
      by_cases h : a.1 = id
      · obtain ⟨k, v⟩ := a
        simp only at h
        simp [mapSet, h, keys, List.cons_subset, List.subset_cons_of_subset]
      · obtain ⟨k, v⟩ := a
        simp only at h
        simp only [mapSet, if_neg h, keys, List.map_cons]
        intro x hx
        rcases List.mem_cons.mp hx with h1 | h2
        · simp [h1]
        · have := ih h2
          rcases List.mem_cons.mp this with h3 | h4
          · simp [h3]
          · simp only [List.mem_cons]
            right
            right
            exact h4

theorem cleanup_keys_subset (st : SessionStore) (now : Int) :
    keys ((st.cleanup now).sessions) ⊆ keys st.sessions := by
  unfold SessionStore.cleanup
  simp only
  have h1 := evictLoop_sublist
    (sweepExpired st.ttl now st.sessions).length st.maxSessions
    (sweepExpired st.ttl now st.sessions)
  have h2 := sweepExpired_sublist st.ttl now st.sessions
  exact ((h1.trans h2).map Prod.fst).subset

theorem create_keys_subset (st : SessionStore) (now : Int) (newId : String) :
    keys (((st.create now newId).2).sessions) ⊆
      newId :: keys st.sessions := by
  unfold SessionStore.create
  simp only
  intro x hx
  have := mapSet_keys_subset (st.cleanup now).sessions newId _ hx
  rcases List.mem_cons.mp this with h1 | h2
  · simp [h1]
  · exact List.mem_cons_of_mem _ (cleanup_keys_subset st now h2)

theorem update_keys_subset (st : SessionStore) (now : Int)
    (id responseId : String) (tokens : Int) :
    keys ((st.update now id responseId tokens).sessions) ⊆
      keys st.sessions := by
  unfold SessionStore.update
  cases hm : mapGet st.sessions id with
  | none => exact fun x hx => hx
  | some s =>
      simp only
      intro x hx
      have := mapSet_keys_subset st.sessions id _ hx
      rcases List.mem_cons.mp this with h1 | h2
      · exact h1 ▸ mapGet_mem_keys hm
      · exact h2

theorem resetCounters_keys_subset (st : SessionStore) (id : String) :
    keys ((st.resetCounters id).sessions) ⊆ keys st.sessions := by
  unfold SessionStore.resetCounters
  cases hm : mapGet st.sessions id with
  | none => exact fun x hx => hx
  | some s =>
      simp only
      intro x hx
      have := mapSet_keys_subset st.sessions id _ hx
      rcases List.mem_cons.mp this with h1 | h2
      · exact h1 ▸ mapGet_mem_keys hm
      · exact h2

theorem runOps_keys_subset :
    ∀ (ops : List StoreOp) (st : SessionStore),
      keys ((runOps st ops).sessions) ⊆
        keys st.sessions ++ createdIds ops := by
  intro ops
  induction ops with
  | nil => intro st; simp [runOps, createdIds]
  | cons op rest ih =>
      intro st
      cases op with
      | createOp now newId =>
          intro x hx
          have h1 := ih (st.create now newId).2 hx
          rcases List.mem_append.mp h1 with h2 | h3
          · rcases List.mem_cons.mp (create_keys_subset st now newId h2)
              with h4 | h5
            · simp [createdIds, h4]
            · simp [createdIds, List.mem_append.mpr (Or.inl h5)]
          · simp [createdIds, List.mem_cons]
            right
            exact Or.inr h3
      | getOp now id =>
          intro x hx
          have h1 := ih (st.get now id).2 hx
          rcases List.mem_append.mp h1 with h2 | h3
          · exact List.mem_append.mpr
              (Or.inl (get_keys_subset st now id h2))
          · exact List.mem_append.mpr (Or.inr (by simpa [createdIds] using h3))
      | updateOp now id rid tok =>
          intro x hx
          have h1 := ih (st.update now id rid tok) hx
          rcases List.mem_append.mp h1 with h2 | h3
          · exact List.mem_append.mpr
              (Or.inl (update_keys_subset st now id rid tok h2))
          · exact List.mem_append.mpr (Or.inr (by simpa [createdIds] using h3))
      | resetOp id =>
          intro x hx
          have h1 := ih (st.resetCounters id) hx
          rcases List.mem_append.mp h1 with h2 | h3
          · exact List.mem_append.mpr
              (Or.inl (resetCounters_keys_subset st id h2))
          · exact List.mem_append.mpr (Or.inr (by simpa [createdIds] using h3))
      | cleanupOp now =>
          intro x hx
          have h1 := ih (st.cleanup now) hx
          rcases List.mem_append.mp h1 with h2 | h3
          · exact List.mem_append.mpr
              (Or.inl (cleanup_keys_subset st now h2))
          · exact List.mem_append.mpr (Or.inr (by simpa [createdIds] using h3))

/-- Claim C8: `get(id)` returns the session exactly when it is present and
not TTL-expired; a present-but-expired entry is deleted as a side effect
with absent returned; a valid hit leaves the whole store (in particular
`lastAccessAt` and every other session field) unchanged; and over any
operation sequence started from an empty store, `get` never returns a
session under an id that no `create` handed out. -/
theorem get_contract :
    (∀ (st : SessionStore) (now : Int) (id : String) (s : Session),
      (st.get now id).1 = some s ↔
        (mapGet st.sessions id = some s ∧
          now - s.lastAccessAt < st.ttl)) ∧
    (∀ (st : SessionStore) (now : Int) (id : String) (s : Session),
      mapGet st.sessions id = some s → st.ttl ≤ now - s.lastAccessAt →
        (st.get now id).1 = none ∧
          (st.get now id).2.sessions = mapDelete st.sessions id) ∧
    (∀ (st : SessionStore) (now : Int) (id : String) (s : Session),
      (st.get now id).1 = some s → (st.get now id).2 = st) ∧
    (∀ (ttl : Int) (maxSessions : Nat) (ops : List StoreOp) (now : Int)
        (id : String) (s : Session),
      ((runOps { sessions := [], ttl := ttl,
                 maxSessions := maxSessions } ops).get now id).1 = some s →
        id ∈ createdIds ops) := by
  refine ⟨get_eq_some_iff, fun st now id s hm hexp => get_expired hm hexp,
    fun st now id s h => (get_hit h).2.2, ?_⟩
  intro ttl maxSessions ops now id s h
  have hm := (get_hit h).1
  have hkeys := mapGet_mem_keys hm
  have := runOps_keys_subset ops
    { sessions := [], ttl := ttl, maxSessions := maxSessions } hkeys
  simpa [keys] using this

/-- Witness for claim C8, at concrete inputs: a valid hit (store
unchanged), an expired entry (deleted, absent), and a created id
recovered from a one-operation trace. -/
theorem get_contract_witness :
    (let st : SessionStore :=
      { sessions := [("x", sessionX)], ttl := 10, maxSessions := 5 }
     ((st.get 7 "x").1 = some sessionX ↔
        (mapGet st.sessions "x" = some sessionX ∧
          (7 : Int) - sessionX.lastAccessAt < st.ttl)) ∧
     ((st.get 20 "x").1 = none ∧
        (st.get 20 "x").2.sessions = mapDelete st.sessions "x") ∧
     (st.get 7 "x").2 = st) ∧
    "n" ∈ createdIds [StoreOp.createOp 0 "n"] := by
  refine ⟨⟨get_contract.1 _ 7 "x" sessionX, ?_, ?_⟩, ?_⟩
  · exact get_contract.2.1 _ 20 "x" sessionX (by decide) (by decide)
  · exact get_contract.2.2.1 _ 7 "x" sessionX (by decide)
  · exact get_contract.2.2.2 10 5 [StoreOp.createOp 0 "n"] 0 "n"
      { id := "n", lastResponseId := "", createdAt := 0, lastAccessAt := 0,
        queryCount := 0, totalTokens := 0 } (by decide)

/-! ### The `web-search` handler (claims C3, C6, C7) -/

theorem webSearchHandler_hit (cfg : Config) (st : SessionStore) (now : Int)
    (sid newId : String) (co : Nat → Option String)
    (c : Option String → Except String ProviderResponse) (s : Session)
    (hget : (st.get now sid).1 = some s) :
    webSearchHandler cfg st now (some sid) newId co c =
      webSearchWithSession cfg st now sid co c := by
  unfold webSearchHandler
  simp only
  rw [hget]
  simp only
  rw [(get_hit hget).2.2]

theorem webSearchWithSession_no_compact (cfg : Config) (st : SessionStore)
    (now : Int) (sid : String) (co : Nat → Option String)
    (c : Option String → Except String ProviderResponse) (s : Session)
    (hm : mapGet st.sessions sid = some s)
    (hnc : shouldCompact cfg s = false) :
    webSearchWithSession cfg st now sid co c =
      (HandlerOutcome.ok sid
        (executeSingleSearch (c (if s.lastResponseId = "" then none
          else some s.lastResponseId))).text none,
       if (executeSingleSearch (c (if s.lastResponseId = "" then none
            else some s.lastResponseId))).responseId = "" then st
       else st.update now sid
         (executeSingleSearch (c (if s.lastResponseId = "" then none
           else some s.lastResponseId))).responseId
         (executeSingleSearch (c (if s.lastResponseId = "" then none
           else some s.lastResponseId))).tokens) := by
  unfold webSearchWithSession
  rw [hm]
  simp only [hnc, Bool.false_eq_true, if_false, hm, Option.getD_some]

/-- Claim C6: when the provider call of a single-query request fails (any
thrown error: auth, rate limit, timeout, or unknown), the executor
returns a user-facing text with an empty continuation token and zero
tokens, and the handler leaves the session store completely unchanged:
no continuation-token change, no counter increment, no `lastAccessAt`
bump.  (The session is valid and not due for compaction, so the only
store-touching step reachable is the conditional `update`.) -/
theorem failed_call_no_session_mutation (cfg : Config) (st : SessionStore)
    (now : Int) (sid newId msg : String) (s : Session)
    (co : Nat → Option String)
    (c : Option String → Except String ProviderResponse)
    (hget : (st.get now sid).1 = some s)
    (hnc : shouldCompact cfg s = false)
    (hcall : c (if s.lastResponseId = "" then none
      else some s.lastResponseId) = Except.error msg) :
    executeSingleSearch (Except.error msg) =
      { text := errorTextFor msg, responseId := "", tokens := 0 } ∧
    webSearchHandler cfg st now (some sid) newId co c =
      (HandlerOutcome.ok sid (errorTextFor msg) none, st) := by
  refine ⟨rfl, ?_⟩
  rw [webSearchHandler_hit cfg st now sid newId co c s hget]
  rw [webSearchWithSession_no_compact cfg st now sid co c s
    (get_hit hget).1 hnc]
  rw [hcall]
  simp [executeSingleSearch]

/-- Witness for claim C6: a concrete valid session whose provider call
throws a rate-limit error; the handler returns the classified error text
and the store is untouched. -/
theorem failed_call_no_session_mutation_witness :
    (executeSingleSearch (Except.error "rate_limit exceeded") =
      { text := errorTextFor "rate_limit exceeded", responseId := "",
        tokens := 0 }) ∧
    (webSearchHandler
        { autoCompaction := true, compactionQueryThreshold := 10,
          compactionTokenThreshold := 50000 }
        { sessions := [("x", sessionX)], ttl := 10, maxSessions := 5 }
        7 (some "x") "ignored" (fun _ => none)
        (fun _ => Except.error "rate_limit exceeded") =
      (HandlerOutcome.ok "x" (errorTextFor "rate_limit exceeded") none,
        { sessions := [("x", sessionX)], ttl := 10, maxSessions := 5 })) :=
  failed_call_no_session_mutation _ _ 7 "x" "ignored"
    "rate_limit exceeded" sessionX _ _ (by decide) (by decide) rfl

/-- Claim C7: a single-query request supplying an unknown or TTL-expired
`sessionId` fails with the explicit "Invalid or expired session ID" error;
no new session is created (the store's key set does not grow — the only
change `get` may make is deleting the expired entry) and no provider call
or retry happens (the result does not depend on either oracle). -/
theorem invalid_session_terminal (cfg : Config) (st : SessionStore)
    (now : Int) (sid newId : String) (co : Nat → Option String)
    (c : Option String → Except String ProviderResponse)
    (h : (st.get now sid).1 = none) :
    webSearchHandler cfg st now (some sid) newId co c =
      (HandlerOutcome.errorInvalidSession
        ("Invalid or expired session ID: " ++ sid), (st.get now sid).2) ∧
    keys ((st.get now sid).2).sessions ⊆ keys st.sessions := by
  constructor
  · unfold webSearchHandler
    simp only
    rw [h]
  · exact get_keys_subset st now sid

/-- Witness for claim C7: looking up an id never created fails with the
explicit error and leaves the store as-is, for an arbitrary concrete
oracle pair. -/
theorem invalid_session_terminal_witness :
    (webSearchHandler
        { autoCompaction := true, compactionQueryThreshold := 10,
          compactionTokenThreshold := 50000 }
        { sessions := [("x", sessionX)], ttl := 10, maxSessions := 5 }
        7 (some "nonexistent-id") "ignored" (fun _ => none)
        (fun _ => Except.error "never called") =
      (HandlerOutcome.errorInvalidSession
        ("Invalid or expired session ID: " ++ "nonexistent-id"),
       (SessionStore.get
         { sessions := [("x", sessionX)], ttl := 10, maxSessions := 5 }
         7 "nonexistent-id").2)) ∧
    keys ((SessionStore.get
        { sessions := [("x", sessionX)], ttl := 10, maxSessions := 5 }
        7 "nonexistent-id").2).sessions ⊆ keys [("x", sessionX)] :=
  invalid_session_terminal _ _ 7 "nonexistent-id" "ignored" _ _ (by decide)

theorem shouldCompact_ne_empty {cfg : Config} {s : Session}
    (h : shouldCompact cfg s = true) : ¬ s.lastResponseId = "" := by
  intro hb
  simp [shouldCompact, hb] at h

/-- The session record after a successful compaction of `s` with new
continuation token `rid`: token replaced, counters reset, all other
fields (id, createdAt, lastAccessAt) unchanged. -/
def compactedSession (s : Session) (rid : String) : Session :=
  { s with lastResponseId := rid, queryCount := 0, totalTokens := 0 }

theorem compactionApply_success (st : SessionStore) (sid : String)
    (s : Session) (rid : String) (hrid : ¬ rid = "") :
    compactionApply st sid s
        { success := true, newResponseId := some rid } =
      ({ st with
          sessions := mapSet st.sessions sid (compactedSession s rid) },
        none) := by
  unfold compactionApply
  simp only
  rw [if_pos (by simp [hrid])]
  unfold SessionStore.resetCounters
  simp only [mapGet_mapSet_self]
  rw [mapSet_mapSet]
  rfl

theorem compactionApply_failure (st : SessionStore) (sid : String)
    (s : Session) :
    compactionApply st sid s
        { success := false, newResponseId := none } =
      (st, some compactionWarning) := rfl

/-- Claim C3: when compaction is due, a successful compaction (non-empty
new token) replaces the session's continuation token and resets both
counters to 0, leaving `id`, `createdAt` and `lastAccessAt` untouched
(see `compactedSession`); a failed compaction leaves the store
byte-identical and sets the non-fatal warning, and the triggering query
still proceeds — the provider call is made with the stale continuation
token and the handler returns a normal (non-error) response carrying the
warning. -/
theorem compaction_success_resets_failure_untouched (cfg : Config)
    (st : SessionStore) (now : Int) (sid newId : String) (s : Session)
    (co : Nat → Option String)
    (c : Option String → Except String ProviderResponse)
    (hget : (st.get now sid).1 = some s)
    (hsc : shouldCompact cfg s = true) :
    (∀ rid : String, ¬ rid = "" →
      compactConversation co =
        { success := true, newResponseId := some rid } →
      compactionApply st sid s (compactConversation co) =
        ({ st with
            sessions := mapSet st.sessions sid (compactedSession s rid) },
          none) ∧
      mapGet (compactionApply st sid s
          (compactConversation co)).1.sessions sid =
        some (compactedSession s rid)) ∧
    (compactConversation co =
        { success := false, newResponseId := none } →
      compactionApply st sid s (compactConversation co) =
        (st, some compactionWarning) ∧
      ∃ st3 : SessionStore,
        webSearchHandler cfg st now (some sid) newId co c =
          (HandlerOutcome.ok sid
            (executeSingleSearch (c (some s.lastResponseId))).text
            (some compactionWarning), st3)) := by
  constructor
  · intro rid hrid hcc
    rw [hcc]
    rw [compactionApply_success st sid s rid hrid]
    exact ⟨rfl, mapGet_mapSet_self _ _ _⟩
  · intro hcc
    have happ : compactionApply st sid s (compactConversation co) =
        (st, some compactionWarning) := by
      rw [hcc]
      exact compactionApply_failure st sid s
    refine ⟨happ, ?_⟩
    rw [webSearchHandler_hit cfg st now sid newId co c s hget]
    unfold webSearchWithSession
    rw [(get_hit hget).1]
    simp only [hsc, if_true, happ, (get_hit hget).1, Option.getD_some,
      if_neg (shouldCompact_ne_empty hsc)]
    exact ⟨_, rfl⟩

/-- A concrete session over the query threshold, used by witnesses. -/
def sessionOver : Session :=
  { id := "x", lastResponseId := "old", createdAt := 0, lastAccessAt := 5,
    queryCount := 12, totalTokens := 100 }

/-- A concrete store holding `sessionOver`, used by witnesses. -/
def storeOver : SessionStore :=
  { sessions := [("x", sessionOver)], ttl := 10, maxSessions := 5 }

/-- The default compaction configuration, used by witnesses. -/
def cfgDefault : Config :=
  { autoCompaction := true, compactionQueryThreshold := 10,
    compactionTokenThreshold := 50000 }

/-- Witness for claim C3 at concrete inputs: an oracle succeeding on the
first attempt resets counters and replaces the token; an always-failing
oracle leaves the store untouched and the handler proceeds with the stale
token plus the warning. -/
theorem compaction_success_resets_failure_untouched_witness :
    (compactionApply storeOver "x" sessionOver
        (compactConversation (fun _ => some "new")) =
      ({ storeOver with
          sessions := mapSet storeOver.sessions "x"
            (compactedSession sessionOver "new") }, none)) ∧
    (compactionApply storeOver "x" sessionOver
        (compactConversation (fun _ => none)) =
      (storeOver, some compactionWarning)) ∧
    (∃ st3 : SessionStore,
      webSearchHandler cfgDefault storeOver 7 (some "x") "ignored"
          (fun _ => none) (fun _ => Except.error "boom") =
        (HandlerOutcome.ok "x"
          (executeSingleSearch
            ((fun _ : Option String => Except.error "boom")
              (some sessionOver.lastResponseId))).text
          (some compactionWarning), st3)) := by
  have hs := compaction_success_resets_failure_untouched cfgDefault
    storeOver 7 "x" "ignored" sessionOver (fun _ => some "new")
    (fun _ => Except.error "boom") (by decide) (by decide)
  have hf := compaction_success_resets_failure_untouched cfgDefault
    storeOver 7 "x" "ignored" sessionOver (fun _ => none)
    (fun _ => Except.error "boom") (by decide) (by decide)
  refine ⟨(hs.1 "new" (by decide) rfl).1, (hf.2 rfl).1, (hf.2 rfl).2⟩
